import Mathlib

/-!
Shallow embedding of the go-jsonrpc repository (a JSON-RPC 2.0 client over
HTTP, `src/client.go`).

Modelling choices:
* JSON documents are the inductive type `Json`; a Go `interface{}` params
  value that `json.Marshal` accepts is modelled as an already-serializable
  `Json` value (so `json.Marshal` of the request cannot fail in the model),
  and a nil params interface is `Option.none`.
* `uuid.UUID` values are modelled as naturals; `uuid.New()` is
  nondeterministic, so the freshly generated identifier is an explicit
  parameter of the call functions.  On the wire an identifier is carried as
  `Json.num`; decoding any other JSON shape (except `null`, which
  `encoding/json` skips) fails, as `uuid.UUID` unmarshalling of a non-string
  fails in Go.
* The HTTP transport (`*http.Client` and its `Do` method) is a parameter:
  a value of an arbitrary type `H` together with an execution function
  `exec : H → HttpRequest → Except Unit HttpResponse`; `http.DefaultClient`
  is the explicit `defaultClient` parameter.
* `Call` is the pure function `Client.Call` below; its outcome records the
  final output value (Go mutates `result` in place; the model threads it),
  the returned error, the list of HTTP requests actually executed, and
  whether a response body was drained and closed (the two `defer`s run
  whenever `Do` returned a response, on every exit path after that point).
* The caller-side `json.Unmarshal` of the raw result into the caller's
  output type is the abstract decoder `dec : Json → α → Option α` (taking
  the current value, since unmarshalling `null` leaves the target as is);
  `none` is an unmarshal error, in which case Go leaves the output value
  untouched at the top level.
-/

namespace JsonRpc

/-- JSON documents (the wire format of the protocol). -/
inductive Json : Type where
  | null : Json
  | bool (b : Bool) : Json
  | num (n : Int) : Json
  | str (s : String) : Json
  | arr (elems : List Json) : Json
  | obj (fields : List (String × Json)) : Json

/-- `uuid.UUID`, modelled as a natural number. -/
abbrev UUID := Nat

/-- `Version` is a JSON-RPC version (source: `const Version = "2.0"`). -/
def Version : String := "2.0"

/-- `ErrorCode` is a number that indicates the error type that occurred. -/
abbrev ErrorCode := Int

/-- Invalid JSON was received by the server. -/
def ParseError : ErrorCode := -32700

/-- The JSON sent is not a valid Request object. -/
def InvalidRequest : ErrorCode := -32600

/-- The method does not exist or is not available. -/
def MethodNotFound : ErrorCode := -32601

/-- Invalid method parameter(s). -/
def InvalidParams : ErrorCode := -32602

/-- Internal JSON-RPC error. -/
def InternalError : ErrorCode := -32603

/-- `ResponseError` represents an error responded by the server. -/
structure ResponseError where
  Code : ErrorCode
  Message : String
  Data : Json

/-- `(*ResponseError).Error()`: `fmt.Sprintf("%s (%d)", err.Message, err.Code)`. -/
def ResponseError.ErrorString (err : ResponseError) : String :=
  err.Message ++ " (" ++ toString err.Code ++ ")"

/-- `requestBody`: builds the request envelope `{jsonrpc, method, params, id}`
with `params` elided (`omitempty`) when the interface value is nil, and
returns the generated identifier together with the serialized body.
The identifier `uuid.New()` is passed in as `id`. -/
def requestBody (method : String) (params : Option Json) (id : UUID) :
    UUID × Json :=
  (id,
    Json.obj
      ([("jsonrpc", Json.str Version), ("method", Json.str method)]
        ++ (match params with
            | none => []
            | some p => [("params", p)])
        ++ [("id", Json.num (Int.ofNat id))]))

/-- The `response` struct: `jsonrpc`, raw `result` (a `json.RawMessage`,
`none` models the nil slice left when the field is absent; a present JSON
`null` is the non-nil bytes `"null"`, i.e. `some Json.null`), optional
structured `error`, and `id`. -/
structure Response where
  jsonrpc : String
  result : Option Json
  error : Option ResponseError
  id : UUID

/-- The zero value of the `response` struct (what `json.Decode` starts from). -/
def zeroResponse : Response :=
  { jsonrpc := "", result := none, error := none, id := 0 }

/-- Decoding one JSON object field into a `ResponseError` being built:
`code` must be a number (an `ErrorCode`), `message` a string, `data` is an
`interface{}` and accepts anything; a JSON `null` leaves a field unchanged
(as `encoding/json` does); unknown fields are ignored. -/
def setErrorField (e : ResponseError) (kv : String × Json) :
    Option ResponseError :=
  if kv.1 = "code" then
    match kv.2 with
    | Json.num n => some { e with Code := n }
    | Json.null => some e
    | _ => none
  else if kv.1 = "message" then
    match kv.2 with
    | Json.str s => some { e with Message := s }
    | Json.null => some e
    | _ => none
  else if kv.1 = "data" then
    match kv.2 with
    | Json.null => some e
    | v => some { e with Data := v }
  else
    some e

/-- Unmarshalling a JSON value into a `ResponseError` (the `error` member of
the envelope when it is not `null`): must be an object. -/
def decodeResponseError (j : Json) : Option ResponseError :=
  match j with
  | Json.obj fields => fields.foldlM setErrorField ⟨0, "", Json.null⟩
  | Json.null => some ⟨0, "", Json.null⟩
  | _ => none

/-- Decoding one JSON object field into the `response` struct being built:
`jsonrpc` must be a string, `result` is a `json.RawMessage` and captures the
raw value whatever it is, `error` is a `*ResponseError` (JSON `null` gives a
nil pointer), `id` is a `uuid.UUID` carried as a number in the model; a JSON
`null` leaves a field unchanged; unknown fields are ignored. -/
def setResponseField (r : Response) (kv : String × Json) : Option Response :=
  if kv.1 = "jsonrpc" then
    match kv.2 with
    | Json.str s => some { r with jsonrpc := s }
    | Json.null => some r
    | _ => none
  else if kv.1 = "result" then
    some { r with result := some kv.2 }
  else if kv.1 = "error" then
    match kv.2 with
    | Json.null => some { r with error := none }
    | v => (decodeResponseError v).map fun e => { r with error := some e }
  else if kv.1 = "id" then
    match kv.2 with
    | Json.num (Int.ofNat u) => some { r with id := u }
    | Json.num (Int.negSucc _) => none
    | Json.null => some r
    | _ => none
  else
    some r

/-- `json.NewDecoder(res.Body).Decode(&rpcRes)`: the body must be a JSON
object (or `null`, which leaves the zero value); its fields are folded into
the zero `response`. -/
def decodeResponse (j : Json) : Option Response :=
  match j with
  | Json.obj fields => fields.foldlM setResponseField zeroResponse
  | Json.null => some zeroResponse
  | _ => none

/-- `http.Header`: an association list from canonical header keys to the
list of values set under that key (Go's map iteration order is modelled by
the insertion order of the list). -/
abbrev Header := List (String × List String)

/-- A byte valid in a MIME header token (`textproto`'s `validHeaderFieldByte`):
alphanumerics and the punctuation of the token character set (codes 39 and
96 are the apostrophe and the backquote). -/
def isTokenChar (c : Char) : Bool :=
  c.isAlphanum || c = '!' || c = '#' || c = '$' || c = '%' || c = '&' ||
    c.toNat = 39 || c = '*' || c = '+' || c = '-' || c = '.' ||
    c = '^' || c = '_' || c.toNat = 96 || c = '|' || c = '~'

/-- Character-wise canonicalization: uppercase at the start and after each
hyphen, lowercase elsewhere. -/
def canonicalChars : Bool → List Char → List Char
  | _, [] => []
  | upper, c :: rest =>
    (if upper then c.toUpper else c.toLower) :: canonicalChars (c = '-') rest

/-- `textproto.CanonicalMIMEHeaderKey`: keys with a byte outside the token
set are returned unchanged. -/
def canonicalMIMEHeaderKey (s : String) : String :=
  if s.data.all isTokenChar then String.mk (canonicalChars true s.data)
  else s

/-- Appending a value to the list stored under the first occurrence of the
key, adding the key at the end when absent (the write half of
`http.Header.Add` after canonicalization). -/
def addToList : Header → String → String → Header
  | [], k, v => [(k, [v])]
  | (k', vs) :: rest, k, v =>
    if k' = k then (k', vs ++ [v]) :: rest
    else (k', vs) :: addToList rest k v

/-- `http.Header.Add`: canonicalizes the key and appends the value. -/
def headerAdd (h : Header) (key value : String) : Header :=
  addToList h (canonicalMIMEHeaderKey key) value

/-- Raw lookup of the value list stored under an (already canonical) key. -/
def lookupVals : Header → String → List String
  | [], _ => []
  | (k', vs) :: rest, k => if k' = k then vs else lookupVals rest k

/-- `http.Header.Get`-style read access: all values under the canonical key
(Go's `Get` returns the first of these). -/
def headerGet (h : Header) (key : String) : List String :=
  lookupVals h (canonicalMIMEHeaderKey key)

/-- The `callOptions` bag; `Header` is a nil-able `http.Header`
(`none` models the nil map, whose iteration adds nothing). -/
structure callOptions where
  Header : Option JsonRpc.Header

/-- The `Option` interface: a function mutating the `callOptions` bag
(`optionFunc` and its `apply`). -/
def Opt := callOptions → callOptions

/-- Applying the option list in call order to the zero `callOptions`
(`var callOpts callOptions; for _, opt := range opts { opt.apply(&callOpts) }`). -/
def applyOpts (opts : List Opt) : callOptions :=
  opts.foldl (fun acc o => o acc) { Header := none }

/-- `WithHeader`: sets (replaces) the `Header` field of the options bag. -/
def WithHeader (header : Option JsonRpc.Header) : Opt :=
  fun opts => { opts with Header := header }

/-- The header loop of `Client.newRequest`: for every entry of the options
header, every value is added with `Header.Add`. -/
def addEntries (h : Header) (entries : Header) : Header :=
  entries.foldl (fun h' kv => kv.2.foldl (fun h'' v => headerAdd h'' kv.1 v) h') h

/-- An outgoing HTTP request as built by `Client.newRequest`. -/
structure HttpRequest where
  method : String
  url : String
  header : Header
  body : Json

/-- `Client.newRequest`: an HTTP POST to `url` carrying the serialized body;
`Content-Type: text/json` is added first, then every value of every entry
of the options header (when that header map is not nil) is added with
`Header.Add`.  URL parsing failures are not modelled (the URL is opaque). -/
def newRequest (url : String) (body : Json) (opts : callOptions) :
    HttpRequest :=
  let hdr := headerAdd [] "Content-Type" "text/json"
  let hdr :=
    match opts.Header with
    | none => hdr
    | some entries => addEntries hdr entries
  { method := "POST", url := url, header := hdr, body := body }

/-- An HTTP response as seen by the client: numeric status code, status
text (`res.Status`, e.g. `"503 Service Unavailable"`), and body. -/
structure HttpResponse where
  StatusCode : Nat
  Status : String
  Body : Json

/-- The errors `Client.Call` can return, one constructor per `return` site. -/
inductive CallError : Type where
  | emptyMethod : CallError
  | postError : CallError
  | statusError (status : String) : CallError
  | decodeError : CallError
  | responseError (e : ResponseError) : CallError
  | idMismatch : CallError
  | resultDecodeError : CallError

/-- The observable outcome of one `Call`: the output value (updated in
place on success), the returned error, the HTTP requests executed, and
whether a received response body was drained and closed by the deferred
cleanup. -/
structure CallOutcome (α : Type) where
  result : α
  error : Option CallError
  requests : List HttpRequest
  bodyClosed : Bool

/-- `Client` represents a JSON-RPC 2.0 client; `HTTPClient` is the optional
transport (`nil` means use `http.DefaultClient`).  The transport type is
abstract. -/
structure Client (H : Type) where
  HTTPClient : Option H

/-- `Client.httpClient`: the configured transport, or the process-wide
default when none was supplied. -/
def Client.httpClient {H : Type} (client : Client H) (defaultClient : H) :
    H :=
  match client.HTTPClient with
  | none => defaultClient
  | some c => c

/-- The body of `Client.Call` after transport selection, as a pure function
of the transport's behaviour and the freshly generated identifier. -/
def callCore {α : Type} (transport : HttpRequest → Except Unit HttpResponse)
    (freshId : UUID) (url : String) (method : String) (params : Option Json)
    (dec : Json → α → Option α) (result : α) (opts : List Opt) :
    CallOutcome α :=
  if method = "" then
    { result := result, error := some CallError.emptyMethod,
      requests := [], bodyClosed := false }
  else
    let callOpts := applyOpts opts
    let idBody := requestBody method params freshId
    let req := newRequest url idBody.2 callOpts
    match transport req with
    | Except.error _ =>
      { result := result, error := some CallError.postError,
        requests := [req], bodyClosed := false }
    | Except.ok res =>
      if res.StatusCode ≠ 200 then
        { result := result, error := some (CallError.statusError res.Status),
          requests := [req], bodyClosed := true }
      else
        match decodeResponse res.Body with
        | none =>
          { result := result, error := some CallError.decodeError,
            requests := [req], bodyClosed := true }
        | some rpcRes =>
          match rpcRes.error with
          | some e =>
            { result := result, error := some (CallError.responseError e),
              requests := [req], bodyClosed := true }
          | none =>
            if rpcRes.id ≠ idBody.1 then
              { result := result, error := some CallError.idMismatch,
                requests := [req], bodyClosed := true }
            else
              match rpcRes.result with
              | none =>
                { result := result,
                  error := some CallError.resultDecodeError,
                  requests := [req], bodyClosed := true }
              | some raw =>
                match dec raw result with
                | none =>
                  { result := result,
                    error := some CallError.resultDecodeError,
                    requests := [req], bodyClosed := true }
                | some v =>
                  { result := v, error := none,
                    requests := [req], bodyClosed := true }

/-- `Client.Call`: calls the method on the url with the params using the
selected transport, and stores the result responded by the server in the
output value. -/
def Client.Call {H α : Type} (client : Client H) (defaultClient : H)
    (exec : H → HttpRequest → Except Unit HttpResponse) (freshId : UUID)
    (url : String) (method : String) (params : Option Json)
    (dec : Json → α → Option α) (result : α) (opts : List Opt) :
    CallOutcome α :=
  callCore (exec (client.httpClient defaultClient)) freshId url method
    params dec result opts

/-- Whenever the transport hands back a response, the deferred cleanup
drains and closes its body on every exit path taken from that point on. -/
lemma callCore_bodyClosed {α : Type}
    (transport : HttpRequest → Except Unit HttpResponse) (freshId : UUID)
    (url method : String) (params : Option Json) (dec : Json → α → Option α)
    (result : α) (opts : List Opt) (res : HttpResponse)
    (hm : method ≠ "") (ht : ∀ q, transport q = Except.ok res) :
    (callCore transport freshId url method params dec result
        opts).bodyClosed = true := by
  simp only [callCore, hm, ht, if_false, ite_false]
  repeat' first
  | rfl
  | split

/-- C9: The fixed enumeration of standard error codes has exactly the values
ParseError = -32700, InvalidRequest = -32600, MethodNotFound = -32601,
InvalidParams = -32602, InternalError = -32603. -/
theorem standard_error_codes :
    ParseError = -32700 ∧ InvalidRequest = -32600 ∧
      MethodNotFound = -32601 ∧ InvalidParams = -32602 ∧
      InternalError = -32603 :=
  ⟨rfl, rfl, rfl, rfl, rfl⟩

/-- C2: For every context, url, params, output location and option list,
calling `Call` with an empty method name returns the empty-method error
immediately, leaves the output untouched, and performs no network activity:
no HTTP request is constructed or executed. -/
theorem call_empty_method_no_network {H α : Type} (client : Client H)
    (defaultClient : H) (exec : H → HttpRequest → Except Unit HttpResponse)
    (freshId : UUID) (url : String) (params : Option Json)
    (dec : Json → α → Option α) (result : α) (opts : List Opt) :
    client.Call defaultClient exec freshId url "" params dec result opts =
      { result := result, error := some CallError.emptyMethod,
        requests := [], bodyClosed := false } :=
  rfl

/-- C8: The serialized request envelope carries the protocol version "2.0",
the method name and the generated identifier; a nil params value is elided
from the envelope entirely, while a non-nil-but-empty params value is
serialized as a present empty object. -/
theorem request_envelope_shape (method : String) (id : UUID) (p : Json) :
    Version = "2.0" ∧
    (requestBody method none id).1 = id ∧
    (requestBody method none id).2 =
      Json.obj [("jsonrpc", Json.str "2.0"), ("method", Json.str method),
        ("id", Json.num (Int.ofNat id))] ∧
    (requestBody method (some p) id).2 =
      Json.obj [("jsonrpc", Json.str "2.0"), ("method", Json.str method),
        ("params", p), ("id", Json.num (Int.ofNat id))] ∧
    (requestBody method (some (Json.obj [])) id).2 =
      Json.obj [("jsonrpc", Json.str "2.0"), ("method", Json.str method),
        ("params", Json.obj []), ("id", Json.num (Int.ofNat id))] :=
  ⟨rfl, rfl, rfl, rfl, rfl⟩

/-- C6: The transport used by every `Call` is a pure function of the
client's configuration: a client with a nil transport field uses the
process-wide default transport, a client with an explicit transport uses
exactly that instance, and every `Call` runs through the transport selected
by `httpClient`. -/
theorem call_transport_selection {H α : Type} (defaultClient : H) :
    ((Client.mk (none : Option H)).httpClient defaultClient
        = defaultClient) ∧
    (∀ t : H, (Client.mk (some t)).httpClient defaultClient = t) ∧
    (∀ (client : Client H)
        (exec : H → HttpRequest → Except Unit HttpResponse)
        (freshId : UUID) (url method : String) (params : Option Json)
        (dec : Json → α → Option α) (result : α) (opts : List Opt),
      client.Call defaultClient exec freshId url method params dec result
          opts =
        callCore (exec (client.httpClient defaultClient)) freshId url
          method params dec result opts) :=
  ⟨rfl, fun _ => rfl, fun _ _ _ _ _ _ _ _ _ => rfl⟩

/-- C1: For every non-empty method name, serializable params and output
location, when the transport returns status 200 with a body that decodes to
an envelope carrying a nil error, the request's identifier, and a result
payload, `Call` populates the output value exactly as direct JSON
deserialization of that result payload would, and returns no error. -/
theorem call_success_populates_result {H α : Type} (client : Client H)
    (defaultClient : H) (exec : H → HttpRequest → Except Unit HttpResponse)
    (freshId : UUID) (url method : String) (params : Option Json)
    (dec : Json → α → Option α) (result : α) (opts : List Opt)
    (res : HttpResponse) (rpcRes : Response) (raw : Json) (v : α)
    (hm : method ≠ "")
    (ht : ∀ q, exec (client.httpClient defaultClient) q = Except.ok res)
    (hstatus : res.StatusCode = 200)
    (hbody : decodeResponse res.Body = some rpcRes)
    (herr : rpcRes.error = none)
    (hid : rpcRes.id = freshId)
    (hraw : rpcRes.result = some raw)
    (hdec : dec raw result = some v) :
    client.Call defaultClient exec freshId url method params dec result
        opts =
      { result := v, error := none,
        requests := [newRequest url (requestBody method params freshId).2
          (applyOpts opts)],
        bodyClosed := true } := by
  simp [Client.Call, callCore, requestBody, hm, ht, hstatus, hbody, herr,
    hid, hraw, hdec]

/-- C1 witness: a concrete successful round trip; the stub server echoes the
identifier 7 and the result 42, and the output is set to 42. -/
theorem call_success_populates_result_witness :
    (Client.mk (H := Unit) none).Call () (fun _ _ => Except.ok
        { StatusCode := 200, Status := "200 OK",
          Body := Json.obj [("jsonrpc", Json.str "2.0"),
            ("result", Json.num 42), ("error", Json.null),
            ("id", Json.num 7)] }) 7 "https://x/rpc" "ping" none
        (fun j _ => match j with | Json.num n => some n | _ => none)
        (0 : Int) [] =
      { result := 42, error := none,
        requests := [newRequest "https://x/rpc"
          (requestBody "ping" none 7).2 (applyOpts [])],
        bodyClosed := true } :=
  call_success_populates_result (Client.mk none) () _ 7 "https://x/rpc"
    "ping" none _ 0 []
    { StatusCode := 200, Status := "200 OK",
      Body := Json.obj [("jsonrpc", Json.str "2.0"),
        ("result", Json.num 42), ("error", Json.null),
        ("id", Json.num 7)] }
    { jsonrpc := "2.0", result := some (Json.num 42), error := none,
      id := 7 }
    (Json.num 42) 42 (by decide) (fun _ => rfl) rfl rfl rfl rfl rfl rfl

/-- C3: For every response envelope whose error field is a non-null
structured error, `Call` returns that structured error value itself as the
call's error, skips result decoding, and leaves the output value
untouched. -/
theorem call_structured_error_passthrough {H α : Type} (client : Client H)
    (defaultClient : H) (exec : H → HttpRequest → Except Unit HttpResponse)
    (freshId : UUID) (url method : String) (params : Option Json)
    (dec : Json → α → Option α) (result : α) (opts : List Opt)
    (res : HttpResponse) (rpcRes : Response) (e : ResponseError)
    (hm : method ≠ "")
    (ht : ∀ q, exec (client.httpClient defaultClient) q = Except.ok res)
    (hstatus : res.StatusCode = 200)
    (hbody : decodeResponse res.Body = some rpcRes)
    (herr : rpcRes.error = some e) :
    client.Call defaultClient exec freshId url method params dec result
        opts =
      { result := result, error := some (CallError.responseError e),
        requests := [newRequest url (requestBody method params freshId).2
          (applyOpts opts)],
        bodyClosed := true } := by
  simp [Client.Call, callCore, hm, ht, hstatus, hbody, herr]

/-- C3 witness: a concrete -32601 "Method not found" structured error is
returned as is, and the output value 0 is untouched. -/
theorem call_structured_error_passthrough_witness :
    (Client.mk (H := Unit) none).Call () (fun _ _ => Except.ok
        { StatusCode := 200, Status := "200 OK",
          Body := Json.obj [("jsonrpc", Json.str "2.0"),
            ("result", Json.null),
            ("error", Json.obj [("code", Json.num (-32601)),
              ("message", Json.str "Method not found"),
              ("data", Json.null)]),
            ("id", Json.num 7)] }) 7 "https://x/rpc" "ping" none
        (fun j _ => match j with | Json.num n => some n | _ => none)
        (0 : Int) [] =
      { result := 0,
        error := some (CallError.responseError
          { Code := -32601, Message := "Method not found",
            Data := Json.null }),
        requests := [newRequest "https://x/rpc"
          (requestBody "ping" none 7).2 (applyOpts [])],
        bodyClosed := true } :=
  call_structured_error_passthrough (Client.mk none) () _ 7 "https://x/rpc"
    "ping" none _ 0 []
    { StatusCode := 200, Status := "200 OK",
      Body := Json.obj [("jsonrpc", Json.str "2.0"),
        ("result", Json.null),
        ("error", Json.obj [("code", Json.num (-32601)),
          ("message", Json.str "Method not found"),
          ("data", Json.null)]),
        ("id", Json.num 7)] }
    { jsonrpc := "2.0", result := some Json.null,
      error := some { Code := -32601, Message := "Method not found",
                      Data := Json.null },
      id := 7 }
    { Code := -32601, Message := "Method not found", Data := Json.null }
    (by decide) (fun _ => rfl) rfl rfl rfl

/-- C4: For every response envelope carrying no structured error whose
identifier differs from the request's freshly generated identifier, `Call`
fails with the identifier-mismatch error and skips result decoding, even if
the envelope otherwise looks well-formed and result-bearing. -/
theorem call_id_mismatch_error {H α : Type} (client : Client H)
    (defaultClient : H) (exec : H → HttpRequest → Except Unit HttpResponse)
    (freshId : UUID) (url method : String) (params : Option Json)
    (dec : Json → α → Option α) (result : α) (opts : List Opt)
    (res : HttpResponse) (rpcRes : Response)
    (hm : method ≠ "")
    (ht : ∀ q, exec (client.httpClient defaultClient) q = Except.ok res)
    (hstatus : res.StatusCode = 200)
    (hbody : decodeResponse res.Body = some rpcRes)
    (herr : rpcRes.error = none)
    (hid : rpcRes.id ≠ freshId) :
    client.Call defaultClient exec freshId url method params dec result
        opts =
      { result := result, error := some CallError.idMismatch,
        requests := [newRequest url (requestBody method params freshId).2
          (applyOpts opts)],
        bodyClosed := true } := by
  simp [Client.Call, callCore, requestBody, hm, ht, hstatus, hbody, herr,
    hid]

/-- C4 witness: a well-formed result-bearing envelope echoing identifier 8
against a request with identifier 7 fails with the mismatch error and the
output value 0 is untouched. -/
theorem call_id_mismatch_error_witness :
    (Client.mk (H := Unit) none).Call () (fun _ _ => Except.ok
        { StatusCode := 200, Status := "200 OK",
          Body := Json.obj [("jsonrpc", Json.str "2.0"),
            ("result", Json.num 42), ("error", Json.null),
            ("id", Json.num 8)] }) 7 "https://x/rpc" "ping" none
        (fun j _ => match j with | Json.num n => some n | _ => none)
        (0 : Int) [] =
      { result := 0, error := some CallError.idMismatch,
        requests := [newRequest "https://x/rpc"
          (requestBody "ping" none 7).2 (applyOpts [])],
        bodyClosed := true } :=
  call_id_mismatch_error (Client.mk none) () _ 7 "https://x/rpc" "ping"
    none _ 0 []
    { StatusCode := 200, Status := "200 OK",
      Body := Json.obj [("jsonrpc", Json.str "2.0"),
        ("result", Json.num 42), ("error", Json.null),
        ("id", Json.num 8)] }
    { jsonrpc := "2.0", result := some (Json.num 42), error := none,
      id := 8 }
    (by decide) (fun _ => rfl) rfl rfl rfl (by decide)

/-- C10: For every response envelope that carries both a non-null
structured error and an identifier different from the request's identifier,
`Call` returns the structured error, never the identifier-mismatch error:
the error check strictly precedes the identifier comparison. -/
theorem call_error_precedes_id_check {H α : Type} (client : Client H)
    (defaultClient : H) (exec : H → HttpRequest → Except Unit HttpResponse)
    (freshId : UUID) (url method : String) (params : Option Json)
    (dec : Json → α → Option α) (result : α) (opts : List Opt)
    (res : HttpResponse) (rpcRes : Response) (e : ResponseError)
    (hm : method ≠ "")
    (ht : ∀ q, exec (client.httpClient defaultClient) q = Except.ok res)
    (hstatus : res.StatusCode = 200)
    (hbody : decodeResponse res.Body = some rpcRes)
    (herr : rpcRes.error = some e)
    (hid : rpcRes.id ≠ freshId) :
    (client.Call defaultClient exec freshId url method params dec result
        opts).error = some (CallError.responseError e) ∧
    (client.Call defaultClient exec freshId url method params dec result
        opts).error ≠ some CallError.idMismatch := by
  constructor
  · simp [Client.Call, callCore, hm, ht, hstatus, hbody, herr]
  · simp [Client.Call, callCore, hm, ht, hstatus, hbody, herr]

/-- C10 witness: an envelope with both a structured error and the wrong
identifier 8 (request identifier 7) yields the structured error, not the
mismatch error. -/
theorem call_error_precedes_id_check_witness :
    ((Client.mk (H := Unit) none).Call () (fun _ _ => Except.ok
        { StatusCode := 200, Status := "200 OK",
          Body := Json.obj [("jsonrpc", Json.str "2.0"),
            ("result", Json.null),
            ("error", Json.obj [("code", Json.num (-32601)),
              ("message", Json.str "Method not found"),
              ("data", Json.null)]),
            ("id", Json.num 8)] }) 7 "https://x/rpc" "ping" none
        (fun j _ => match j with | Json.num n => some n | _ => none)
        (0 : Int) []).error =
      some (CallError.responseError
        { Code := -32601, Message := "Method not found",
          Data := Json.null }) :=
  (call_error_precedes_id_check (Client.mk none) () _ 7 "https://x/rpc"
    "ping" none _ 0 []
    { StatusCode := 200, Status := "200 OK",
      Body := Json.obj [("jsonrpc", Json.str "2.0"),
        ("result", Json.null),
        ("error", Json.obj [("code", Json.num (-32601)),
          ("message", Json.str "Method not found"),
          ("data", Json.null)]),
        ("id", Json.num 8)] }
    { jsonrpc := "2.0", result := some Json.null,
      error := some { Code := -32601, Message := "Method not found",
                      Data := Json.null },
      id := 8 }
    { Code := -32601, Message := "Method not found", Data := Json.null }
    (by decide) (fun _ => rfl) rfl rfl rfl (by decide)).1

/-- C5: For every HTTP response whose status code is not exactly 200,
`Call` fails with a status error reporting the HTTP status text and never
attempts to decode the response envelope (whatever the body holds); the
body is nevertheless drained and closed on this exit path, as it is on
every exit path on which a response was received. -/
theorem call_non_200_status_error {H α : Type} (client : Client H)
    (defaultClient : H) (exec : H → HttpRequest → Except Unit HttpResponse)
    (freshId : UUID) (url method : String) (params : Option Json)
    (dec : Json → α → Option α) (result : α) (opts : List Opt)
    (res : HttpResponse)
    (hm : method ≠ "")
    (ht : ∀ q, exec (client.httpClient defaultClient) q = Except.ok res)
    (hstatus : res.StatusCode ≠ 200) :
    (client.Call defaultClient exec freshId url method params dec result
        opts =
      { result := result, error := some (CallError.statusError res.Status),
        requests := [newRequest url (requestBody method params freshId).2
          (applyOpts opts)],
        bodyClosed := true }) ∧
    (∀ (exec' : H → HttpRequest → Except Unit HttpResponse)
        (res' : HttpResponse),
      (∀ q, exec' (client.httpClient defaultClient) q = Except.ok res') →
      (client.Call defaultClient exec' freshId url method params dec
          result opts).bodyClosed = true) := by
  constructor
  · simp [Client.Call, callCore, hm, ht, hstatus]
  · intro exec' res' ht'
    exact callCore_bodyClosed _ freshId url method params dec result opts
      res' hm ht'

/-- C5 witness: an HTTP 503 response fails with a status error carrying the
status text "503 Service Unavailable", leaves the output value 0 untouched,
and the body of an arbitrary 2xx response is still drained and closed. -/
theorem call_non_200_status_error_witness :
    (Client.mk (H := Unit) none).Call () (fun _ _ => Except.ok
        { StatusCode := 503, Status := "503 Service Unavailable",
          Body := Json.obj [("jsonrpc", Json.str "2.0"),
            ("result", Json.num 42), ("error", Json.null),
            ("id", Json.num 7)] }) 7 "https://x/rpc" "ping" none
        (fun j _ => match j with | Json.num n => some n | _ => none)
        (0 : Int) [] =
      { result := 0,
        error := some (CallError.statusError "503 Service Unavailable"),
        requests := [newRequest "https://x/rpc"
          (requestBody "ping" none 7).2 (applyOpts [])],
        bodyClosed := true } :=
  (call_non_200_status_error (Client.mk none) () _ 7 "https://x/rpc"
    "ping" none _ 0 []
    { StatusCode := 503, Status := "503 Service Unavailable",
      Body := Json.obj [("jsonrpc", Json.str "2.0"),
        ("result", Json.num 42), ("error", Json.null),
        ("id", Json.num 7)] }
    (by decide) (fun _ => rfl) (by decide)).1

/-- Looking a key up after `addToList`: the appended value lands at the end
of the list stored under that key; other keys are untouched. -/
lemma lookupVals_addToList (h : Header) (k v k0 : String) :
    lookupVals (addToList h k v) k0 =
      if k0 = k then lookupVals h k0 ++ [v] else lookupVals h k0 := by
  induction h with
  | nil =>
    by_cases hk : k0 = k
    · subst hk; simp [addToList, lookupVals]
    · simp [addToList, lookupVals, hk, Ne.symm hk]
  | cons kv rest ih =>
    obtain ⟨k', vs⟩ := kv
    by_cases h1 : k' = k
    · subst h1
      by_cases h2 : k0 = k'
      · subst h2; simp [addToList, lookupVals]
      · simp [addToList, lookupVals, h2, Ne.symm h2]
    · by_cases h2 : k' = k0
      · subst h2
        simp [addToList, lookupVals, h1, Ne.symm h1]
      · simp [addToList, lookupVals, h1, h2, ih]

/-- `Header.Add` in terms of raw lookups. -/
lemma lookupVals_headerAdd (h : Header) (key v k0 : String) :
    lookupVals (headerAdd h key v) k0 =
      if k0 = canonicalMIMEHeaderKey key then lookupVals h k0 ++ [v]
      else lookupVals h k0 :=
  lookupVals_addToList h _ v k0

/-- `Header.Add` never removes a stored value. -/
lemma mem_lookupVals_headerAdd (h : Header) (key v k0 x : String)
    (hx : x ∈ lookupVals h k0) :
    x ∈ lookupVals (headerAdd h key v) k0 := by
  rw [lookupVals_headerAdd]
  split <;> simp [hx]

/-- `Header.Add` stores the added value under the canonical key. -/
lemma self_mem_lookupVals_headerAdd (h : Header) (key v : String) :
    v ∈ lookupVals (headerAdd h key v) (canonicalMIMEHeaderKey key) := by
  rw [lookupVals_headerAdd]
  simp

/-- Adding a list of values under one key never removes a stored value. -/
lemma mem_lookupVals_foldl_add (vs : List String) (h : Header)
    (key k0 x : String) (hx : x ∈ lookupVals h k0) :
    x ∈ lookupVals (vs.foldl (fun h' v => headerAdd h' key v) h) k0 := by
  induction vs generalizing h with
  | nil => exact hx
  | cons v rest ih => exact ih _ (mem_lookupVals_headerAdd h key v k0 x hx)

/-- Adding a list of values under one key stores each of them under the
canonical key. -/
lemma mem_lookupVals_foldl_add_self (vs : List String) (h : Header)
    (key v : String) (hv : v ∈ vs) :
    v ∈ lookupVals (vs.foldl (fun h' v' => headerAdd h' key v') h)
      (canonicalMIMEHeaderKey key) := by
  induction vs generalizing h with
  | nil => cases hv
  | cons v0 rest ih =>
    rcases List.mem_cons.mp hv with h0 | h0
    · subst h0
      exact mem_lookupVals_foldl_add rest _ key _ v
        (self_mem_lookupVals_headerAdd h key v)
    · exact ih _ h0

/-- The `newRequest` header loop never removes a stored value. -/
lemma mem_lookupVals_addEntries (entries : Header) (h : Header)
    (k0 x : String) (hx : x ∈ lookupVals h k0) :
    x ∈ lookupVals (addEntries h entries) k0 := by
  induction entries generalizing h with
  | nil => exact hx
  | cons kv rest ih =>
    exact ih _ (mem_lookupVals_foldl_add kv.2 h kv.1 k0 x hx)

/-- Every value of every entry handed to the `newRequest` header loop ends
up stored under the entry's canonical key. -/
lemma entry_mem_lookupVals_addEntries (entries : Header) (h : Header)
    (k v : String) (vs : List String)
    (hkv : (k, vs) ∈ entries) (hv : v ∈ vs) :
    v ∈ lookupVals (addEntries h entries) (canonicalMIMEHeaderKey k) := by
  induction entries generalizing h with
  | nil => cases hkv
  | cons kv rest ih =>
    rcases List.mem_cons.mp hkv with h0 | h0
    · subst h0
      exact mem_lookupVals_addEntries rest _ _ v
        (mem_lookupVals_foldl_add_self vs h k v hv)
    · exact ih _ h0

/-- `Header.Add` keeps the first stored Content-Type value first. -/
lemma contentType_first_headerAdd (h : Header) (key v : String)
    (t : List String)
    (hct : lookupVals h "Content-Type" = "text/json" :: t) :
    ∃ t', lookupVals (headerAdd h key v) "Content-Type" =
      "text/json" :: t' := by
  rw [lookupVals_headerAdd]
  split
  · exact ⟨t ++ [v], by rw [hct]; rfl⟩
  · exact ⟨t, hct⟩

/-- Adding a list of values under one key keeps the first stored
Content-Type value first. -/
lemma contentType_first_foldl_add (vs : List String) (h : Header)
    (key : String) (t : List String)
    (hct : lookupVals h "Content-Type" = "text/json" :: t) :
    ∃ t', lookupVals (vs.foldl (fun h' v => headerAdd h' key v) h)
      "Content-Type" = "text/json" :: t' := by
  induction vs generalizing h t with
  | nil => exact ⟨t, hct⟩
  | cons v rest ih =>
    obtain ⟨t', ht'⟩ := contentType_first_headerAdd h key v t hct
    exact ih _ t' ht'

/-- The `newRequest` header loop keeps the first stored Content-Type value
first. -/
lemma contentType_first_addEntries (entries : Header) (h : Header)
    (t : List String)
    (hct : lookupVals h "Content-Type" = "text/json" :: t) :
    ∃ t', lookupVals (addEntries h entries) "Content-Type" =
      "text/json" :: t' := by
  induction entries generalizing h t with
  | nil => exact ⟨t, hct⟩
  | cons kv rest ih =>
    obtain ⟨t', ht'⟩ := contentType_first_foldl_add kv.2 h kv.1 t hct
    exact ih _ t' ht'

/-- The canonical form of the key the client sets itself. -/
lemma canonical_contentType :
    canonicalMIMEHeaderKey "Content-Type" = "Content-Type" := by decide

/-- C7: Options are applied in call order to an initially empty options
value; a later `WithHeader` replaces (rather than merges with) the header
set of an earlier one; every entry of the final header set is added to the
outgoing request's headers; and the standard Content-Type header the
client sets itself is never replaced (its value "text/json" stays the
first value stored under Content-Type). -/
theorem call_options_and_headers (url : String) (body : Json) :
    (∀ opts : List Opt,
      applyOpts opts = opts.foldl (fun acc o => o acc) { Header := none }) ∧
    (∀ (prior : callOptions) (hs : Option Header),
      WithHeader hs prior = { Header := hs }) ∧
    (∀ (opts : List Opt) (hs : Option Header),
      (applyOpts (opts ++ [WithHeader hs])).Header = hs) ∧
    (∀ (opts : callOptions) (entries : Header) (k v : String)
        (vs : List String),
      opts.Header = some entries → (k, vs) ∈ entries → v ∈ vs →
      v ∈ headerGet (newRequest url body opts).header k) ∧
    (∀ opts : callOptions, ∃ rest,
      headerGet (newRequest url body opts).header "Content-Type" =
        "text/json" :: rest) := by
  refine ⟨fun _ => rfl, fun _ _ => rfl, ?_, ?_, ?_⟩
  · intro opts hs
    simp [applyOpts, List.foldl_append, WithHeader]
  · intro opts entries k v vs hH hkv hv
    simp only [newRequest, hH, headerGet]
    exact entry_mem_lookupVals_addEntries entries _ k v vs hkv hv
  · intro opts
    match hH : opts.Header with
    | none =>
      refine ⟨[], ?_⟩
      simp only [newRequest, hH, headerGet, canonical_contentType]
      decide
    | some entries =>
      simp only [newRequest, hH, headerGet, canonical_contentType]
      exact contentType_first_addEntries entries _ [] (by decide)

/-- C7 witness: a later `WithHeader` wins over an earlier one, and a custom
header value supplied via options is present in the outgoing request's
headers. -/
theorem call_options_and_headers_witness :
    (applyOpts [WithHeader (some [("A", ["1"])]),
        WithHeader (some [("X-Custom-Header", ["XXXX"])])]).Header =
      some [("X-Custom-Header", ["XXXX"])] ∧
    "XXXX" ∈ headerGet (newRequest "https://x/rpc" Json.null
      { Header := some [("X-Custom-Header", ["XXXX"])] }).header
      "X-Custom-Header" :=
  ⟨(call_options_and_headers "https://x/rpc" Json.null).2.2.1
      [WithHeader (some [("A", ["1"])])]
      (some [("X-Custom-Header", ["XXXX"])]),
    (call_options_and_headers "https://x/rpc" Json.null).2.2.2.1
      { Header := some [("X-Custom-Header", ["XXXX"])] }
      [("X-Custom-Header", ["XXXX"])] "X-Custom-Header" "XXXX" ["XXXX"]
      rfl (by simp) (by simp)⟩

end JsonRpc
